import Mathlib

/-!
Verification development for the cursor-apple-notes-indexer repository.

The repository's core (src/search.js, src/index.js, storage.js) is shallowly
embedded below: JS strings are `String`/`List Char`, JS `null`/`undefined` is
`Option.none`, the regular expressions used by `parseQuery` are implemented as
deterministic leftmost matchers (each is analysed in a comment at its
definition), and the asynchronous/IO boundary (the JXA fetch, the nedb store,
the lunr library's index object) is made explicit: the fetch outcome is a
parameter, the store is a list of records, and the lunr index is modelled by
the note snapshot it was built from together with an explicit search function.
-/

namespace NotesIndexer

/-- ASCII lower-casing, as performed by JS `String.prototype.toLowerCase` on
the characters exercised by this code base (regex captures are ASCII). -/
def lowerC : Char → Char
  | 'A' => 'a' | 'B' => 'b' | 'C' => 'c' | 'D' => 'd' | 'E' => 'e' | 'F' => 'f'
  | 'G' => 'g' | 'H' => 'h' | 'I' => 'i' | 'J' => 'j' | 'K' => 'k' | 'L' => 'l'
  | 'M' => 'm' | 'N' => 'n' | 'O' => 'o' | 'P' => 'p' | 'Q' => 'q' | 'R' => 'r'
  | 'S' => 's' | 'T' => 't' | 'U' => 'u' | 'V' => 'v' | 'W' => 'w' | 'X' => 'x'
  | 'Y' => 'y' | 'Z' => 'z'
  | c => c

/-- Case-insensitive character comparison, the semantics of the `i` flag on
the three regexes in `parseQuery` (src/search.js lines 138, 145, 154). -/
def ciEq (a b : Char) : Bool := lowerC a == lowerC b

/-- JS `String.prototype.toLowerCase`, restricted to ASCII case mapping. -/
def jsToLower (s : String) : String := ⟨s.data.map lowerC⟩

/-- Whitespace class of JS `\s` and `String.prototype.trim`, restricted to the
ASCII whitespace characters (Unicode space characters are not exercised). -/
def jsWS (c : Char) : Bool :=
  c == ' ' || c == '\t' || c == '\n' || c == '\r' || c.toNat == 11 || c.toNat == 12

/-- The quote class `["']` used by the folder and date directive regexes. -/
def isQuote (c : Char) : Bool := c == '"' || c == '\''

/-- The digit class `\d` of the date directive regex. -/
def isDig (c : Char) : Bool := decide ('0' ≤ c ∧ c ≤ '9')

/-- Match a literal pattern case-insensitively at the head of the input,
returning the consumed input characters (original case) and the remainder. -/
def matchLit : List Char → List Char → Option (List Char × List Char)
  | [], s => some ([], s)
  | _ :: _, [] => none
  | p :: ps, c :: cs =>
    if ciEq p c then
      match matchLit ps cs with
      | some (took, rest) => some (c :: took, rest)
      | none => none
    else none

/-- Match exactly `n` digits (`\d{n}`) at the head of the input. -/
def matchNDigits : Nat → List Char → Option (List Char × List Char)
  | 0, s => some ([], s)
  | _ + 1, [] => none
  | n + 1, c :: cs =>
    if isDig c then
      match matchNDigits n cs with
      | some (took, rest) => some (c :: took, rest)
      | none => none
    else none

/-- Match the date literal `\d{4}-\d{2}-\d{2}` at the head of the input. -/
def matchDateLit (s : List Char) : Option (List Char × List Char) :=
  match matchNDigits 4 s with
  | none => none
  | some (y, r1) =>
    match r1 with
    | '-' :: r2 =>
      match matchNDigits 2 r2 with
      | none => none
      | some (mo, r3) =>
        match r3 with
        | '-' :: r4 =>
          match matchNDigits 2 r4 with
          | none => none
          | some (d, r5) => some (y ++ '-' :: mo ++ '-' :: d, r5)
        | _ => none
    | _ => none

/-- Match `\s+` (one or more whitespace characters) at the head of the input. -/
def matchWs1 (s : List Char) : Option (List Char × List Char) :=
  let run := s.takeWhile jsWS
  if run.isEmpty then none else some (run, s.dropWhile jsWS)

/-- Match the optional group `(?:\s+to\s+(\d{4}-\d{2}-\d{2}))` of the date
directive regex; returns (consumed text, second-date capture, remainder). -/
def matchOptTo (s : List Char) : Option (List Char × List Char × List Char) :=
  match matchWs1 s with
  | none => none
  | some (w1, r1) =>
    match matchLit "to".data r1 with
    | none => none
    | some (cto, r2) =>
      match matchWs1 r2 with
      | none => none
      | some (w2, r3) =>
        match matchDateLit r3 with
        | none => none
        | some (d2, r4) => some (w1 ++ cto ++ w2 ++ d2, d2, r4)

/-- Attempt at a single position of the regex
`/folder:["']([^"']+)["']/i` (src/search.js line 138).  The greedy class
`[^"']+` runs to the next quote and cannot backtrack into a successful match,
so the matcher is deterministic; returns (whole match, capture). -/
def matchFolderAt (s : List Char) : Option (List Char × List Char) :=
  match matchLit "folder:".data s with
  | none => none
  | some (c1, r1) =>
    match r1 with
    | [] => none
    | q1 :: r2 =>
      if isQuote q1 then
        let val := r2.takeWhile (fun c => !isQuote c)
        if val.isEmpty then none
        else
          match r2.dropWhile (fun c => !isQuote c) with
          | q2 :: _ => some (c1 ++ q1 :: (val ++ [q2]), val)
          | [] => none
      else none

/-- Completion of a date-directive match without the optional `to` group:
the closing quote must follow the first date immediately. -/
def matchDateNoGrp (c1 : List Char) (q1 : Char) (d1 r3 : List Char) :
    Option (List Char × List Char × Option (List Char)) :=
  match r3 with
  | q2 :: _ => if isQuote q2 then some (c1 ++ q1 :: (d1 ++ [q2]), d1, none) else none
  | [] => none

/-- Attempt at a single position of the regex
`/date:["'](\d{4}-\d{2}-\d{2})(?:\s+to\s+(\d{4}-\d{2}-\d{2}))?["']/i`
(src/search.js line 145).  The optional group is tried greedily first; if it
matches but the closing quote does not follow, the engine backtracks to the
group-free alternative, which requires the quote directly after the first
date.  Returns (whole match, first capture, optional second capture). -/
def matchDateAt (s : List Char) :
    Option (List Char × List Char × Option (List Char)) :=
  match matchLit "date:".data s with
  | none => none
  | some (c1, r1) =>
    match r1 with
    | [] => none
    | q1 :: r2 =>
      if isQuote q1 then
        match matchDateLit r2 with
        | none => none
        | some (d1, r3) =>
          match matchOptTo r3 with
          | some (grp, d2, r4) =>
            match r4 with
            | q2 :: _ =>
              if isQuote q2 then some (c1 ++ q1 :: (d1 ++ grp ++ [q2]), d1, some d2)
              else matchDateNoGrp c1 q1 d1 r3
            | [] => matchDateNoGrp c1 q1 d1 r3
          | none => matchDateNoGrp c1 q1 d1 r3
      else none

/-- The four alternatives of the sort directive regex, in source order. -/
def sortAlts : List (List Char) :=
  ["relevance".data, "dateNewest".data, "dateOldest".data, "alphabetical".data]

/-- Try a list of literal alternatives in order at the head of the input. -/
def matchAlts : List (List Char) → List Char → Option (List Char × List Char)
  | [], _ => none
  | alt :: rest, s =>
    match matchLit alt s with
    | some (c, r) => some (c, r)
    | none => matchAlts rest s

/-- Attempt at a single position of the regex
`/sort:(relevance|dateNewest|dateOldest|alphabetical)/i`
(src/search.js line 154); returns (whole match, capture). -/
def matchSortAt (s : List Char) : Option (List Char × List Char) :=
  match matchLit "sort:".data s with
  | none => none
  | some (c1, r1) =>
    match matchAlts sortAlts r1 with
    | none => none
    | some (c2, _) => some (c1 ++ c2, c2)

/-- Leftmost-match search: try the position matcher at every suffix, left to
right, exactly as `RegExp.prototype.exec` scans for its earliest match. -/
def findFirst {β : Type} (m : List Char → Option β) : List Char → Option β
  | [] => m []
  | c :: rest =>
    match m (c :: rest) with
    | some r => some r
    | none => findFirst m rest

/-- JS `String.prototype.replace` with a string pattern and empty replacement:
removes the first occurrence of `t`, leaves the string unchanged if absent. -/
def replaceFirstL (t : List Char) : List Char → List Char
  | [] => []
  | c :: rest =>
    if t.isPrefixOf (c :: rest) then (c :: rest).drop t.length
    else c :: replaceFirstL t rest

/-- String wrapper for `replaceFirstL`. -/
def replaceFirstS (s t : String) : String := ⟨replaceFirstL t.data s.data⟩

/-- JS `String.prototype.trim` (ASCII whitespace, see `jsWS`). -/
def trimL (s : List Char) : List Char :=
  ((s.dropWhile jsWS).reverse.dropWhile jsWS).reverse

/-- String wrapper for `trimL`. -/
def trimS (s : String) : String := ⟨trimL s.data⟩

/-- The `dateRange` object of a structured query: `{start, end}` as built by
`parseQuery`, with `Option` for fields that may be absent (`undefined`) when a
caller hands `advancedSearch` an arbitrary options object. -/
structure QDateRange where
  start : Option String
  «end» : Option String
deriving DecidableEq, Repr

/-- Result shape of `parseQuery` (src/search.js lines 130-135). -/
structure ParsedQuery where
  query : String
  folder : Option String
  dateRange : Option QDateRange
  sortBy : String
deriving DecidableEq, Repr

/-- The folder-directive step of `parseQuery` (src/search.js lines 138-142):
the regex is matched against the original raw string, and on success the
matched text is removed from the evolving `result.query`, which is trimmed. -/
def applyFolderStep (orig : List Char) (r : ParsedQuery) : ParsedQuery :=
  match findFirst matchFolderAt orig with
  | some (whole, cap) =>
    { r with query := trimS (replaceFirstS r.query ⟨whole⟩), folder := some ⟨cap⟩ }
  | none => r

/-- The date-directive step of `parseQuery` (src/search.js lines 145-151);
a missing second capture falls back to the first (`dateMatch[2] || start`). -/
def applyDateStep (orig : List Char) (r : ParsedQuery) : ParsedQuery :=
  match findFirst matchDateAt orig with
  | some (whole, c1, c2) =>
    let start : String := ⟨c1⟩
    let e : String := match c2 with | some c => ⟨c⟩ | none => start
    { r with query := trimS (replaceFirstS r.query ⟨whole⟩),
             dateRange := some ⟨some start, some e⟩ }
  | none => r

/-- The sort-directive step of `parseQuery` (src/search.js lines 154-158):
the capture is lower-cased (`sortMatch[1].toLowerCase()`). -/
def applySortStep (orig : List Char) (r : ParsedQuery) : ParsedQuery :=
  match findFirst matchSortAt orig with
  | some (whole, cap) =>
    { r with query := trimS (replaceFirstS r.query ⟨whole⟩),
             sortBy := jsToLower ⟨cap⟩ }
  | none => r

/-- `parseQuery` (src/search.js lines 129-161): the result starts as
`{query: queryString, folder: null, dateRange: null, sortBy: 'relevance'}` and
the three directive steps are applied in source order, each matching against
the original string and rewriting the evolving free-text remainder. -/
def parseQuery (queryString : String) : ParsedQuery :=
  applySortStep queryString.data
    (applyDateStep queryString.data
      (applyFolderStep queryString.data ⟨queryString, none, none, "relevance"⟩))

/-- A note record as produced by the JXA fetch (src/index.js lines 40-47).
Fields that JS callers may leave `null`/`undefined` are `Option`s. -/
structure Note where
  id : String
  name : String
  body : String
  folder : Option String
  creationDate : Option String
  modificationDate : Option String
deriving DecidableEq, Repr

/-- A raw lunr search hit: `{ref, score}`.  lunr scores are opaque floats the
repository never inspects or compares, so the score is an opaque payload. -/
structure Hit where
  ref : String
  score : Int
deriving DecidableEq, Repr

/-- A resolved search result `{...note, score}` (src/search.js lines 54-60).
Spreading `undefined` (an unresolved ref) yields an object carrying only the
score, modelled by `note := none`. -/
structure ScoredNote where
  note : Option Note
  score : Int
deriving DecidableEq, Repr

/-- The reference-resolution step shared by `advancedSearch` (src/search.js
lines 53-60) and `searchNotes` (src/index.js lines 123-130):
`results.map(result => ({...notes.find(n => n.id === result.ref), score}))`. -/
def resolveHits (notes : List Note) (hits : List Hit) : List ScoredNote :=
  hits.map (fun h => ⟨notes.find? (fun n => decide (n.id = h.ref)), h.score⟩)

/-- JS truthiness of an optional string: absent (`null`/`undefined`) and the
empty string are falsy. -/
def jsTruthyS : Option String → Bool
  | none => false
  | some s => decide (s ≠ "")

/-- Order-isomorphic encoding of an ECMAScript `Date` timestamp from its UTC
calendar fields: calendar order coincides with timestamp order, and the code
only ever compares timestamps, so comparisons are preserved exactly. -/
def encDate (y mo d h mi s : Nat) : Nat :=
  ((((y * 13 + mo) * 32 + d) * 24 + h) * 60 + mi) * 60 + s

/-- Numeric value of a digit run. -/
def digitsVal (l : List Char) : Nat :=
  l.foldl (fun a c => a * 10 + (c.toNat - 48)) 0

/-- Parse tail of an ISO timestamp after the date part: empty (midnight UTC,
the `new Date("YYYY-MM-DD")` case) or `THH:MM:SS` with optional `Z`.
Returns `(hours, minutes, seconds)`, or `none` for an invalid date (NaN). -/
def jsParseTime : List Char → Option (Nat × Nat × Nat)
  | [] => some (0, 0, 0)
  | 'T' :: r =>
    match matchNDigits 2 r with
    | none => none
    | some (hh, r1) =>
      match r1 with
      | ':' :: r2 =>
        match matchNDigits 2 r2 with
        | none => none
        | some (mm, r3) =>
          match r3 with
          | ':' :: r4 =>
            match matchNDigits 2 r4 with
            | none => none
            | some (ss, r5) =>
              let h := digitsVal hh
              let mi := digitsVal mm
              let s := digitsVal ss
              if h ≤ 23 ∧ mi ≤ 59 ∧ s ≤ 59 ∧ (r5 = [] ∨ r5 = ['Z']) then
                some (h, mi, s)
              else none
          | _ => none
      | _ => none
  | _ => none

/-- Model of `new Date(string)` for the ISO-8601 forms this repository
produces and compares (`YYYY-MM-DD`, `YYYY-MM-DDTHH:MM:SS[Z]`, UTC):
`none` is the invalid date (NaN timestamp), whose comparisons are all false. -/
def jsParseDate (s : String) : Option Nat :=
  match matchNDigits 4 s.data with
  | none => none
  | some (y, r1) =>
    match r1 with
    | '-' :: r2 =>
      match matchNDigits 2 r2 with
      | none => none
      | some (mo, r3) =>
        match r3 with
        | '-' :: r4 =>
          match matchNDigits 2 r4 with
          | none => none
          | some (d, r5) =>
            let yv := digitsVal y
            let mov := digitsVal mo
            let dv := digitsVal d
            if 1 ≤ mov ∧ mov ≤ 12 ∧ 1 ≤ dv ∧ dv ≤ 31 then
              match jsParseTime r5 with
              | some (h, mi, sec) => some (encDate yv mov dv h mi sec)
              | none => none
            else none
        | _ => none
    | _ => none

/-- Comparison `a >= b` on JS dates: false when either side is NaN. -/
def nanGe : Option Nat → Option Nat → Bool
  | some a, some b => decide (b ≤ a)
  | _, _ => false

/-- Comparison `a <= b` on JS dates: false when either side is NaN. -/
def nanLe : Option Nat → Option Nat → Bool
  | some a, some b => decide (a ≤ b)
  | _, _ => false

/-- The `new Date(note.modificationDate)` timestamp of a result entry; an
unresolved entry (spread of `undefined`) or absent field gives NaN. -/
def entryModMs (e : ScoredNote) : Option Nat :=
  match e.note with
  | some n =>
    match n.modificationDate with
    | some d => jsParseDate d
    | none => none
  | none => none

/-- The folder post-filter of `advancedSearch` (src/search.js lines 63-65):
skipped when `folder` is falsy, otherwise `note.folder === folder` (strict
equality; an unresolved entry's `undefined` folder never equals a string). -/
def applyFolderFilter (folder : Option String) (results : List ScoredNote) :
    List ScoredNote :=
  if jsTruthyS folder then
    results.filter (fun e =>
      match e.note with
      | some n => decide (n.folder = folder)
      | none => false)
  else results

/-- The date-range post-filter of `advancedSearch` (src/search.js lines
68-80): skipped when `dateRange` is falsy, and filtering happens only when
both `start` and `end` are truthy. -/
def applyDateFilter (dr : Option QDateRange) (results : List ScoredNote) :
    List ScoredNote :=
  match dr with
  | none => results
  | some r =>
    if jsTruthyS r.start && jsTruthyS r.«end» then
      results.filter (fun e =>
        nanGe (entryModMs e) (jsParseDate (r.start.getD "")) &&
        nanLe (entryModMs e) (jsParseDate (r.«end».getD "")))
    else results

/-- Stable insertion of `a` into a list sorted by `le` (used to model the
stable `Array.prototype.sort`). -/
def insertBy {α : Type} (le : α → α → Bool) (a : α) : List α → List α
  | [] => [a]
  | b :: rest => if le a b then a :: b :: rest else b :: insertBy le a rest

/-- Stable insertion sort modelling `Array.prototype.sort(comparator)`. -/
def sortBy' {α : Type} (le : α → α → Bool) (l : List α) : List α :=
  l.foldr (insertBy le) []

/-- Sort key for the date comparators; a NaN date is modelled as 0 (the
comparator's behaviour on NaN is unspecified in JS and unused by the spec). -/
def modKey (e : ScoredNote) : Nat := (entryModMs e).getD 0

/-- The `name` accessed by the alphabetical comparator; an unresolved entry
has no name (that case would throw in JS and is unused by the spec). -/
def nameKey (e : ScoredNote) : String :=
  match e.note with
  | some n => n.name
  | none => ""

/-- The sort step of `advancedSearch` (src/search.js lines 82-101): a falsy
`sortBy` skips the switch; `relevance` and any unrecognized mode leave the
order unchanged (`break` / no matching case); `dateNewest`/`dateOldest` sort
by modification date; `alphabetical` sorts by name (`localeCompare` modelled
as code-point order). -/
def applySort (sortOpt : Option String) (results : List ScoredNote) :
    List ScoredNote :=
  match sortOpt with
  | none => results
  | some sb =>
    if sb = "" then results
    else if sb = "relevance" then results
    else if sb = "dateNewest" then sortBy' (fun a b => decide (modKey b ≤ modKey a)) results
    else if sb = "dateOldest" then sortBy' (fun a b => decide (modKey a ≤ modKey b)) results
    else if sb = "alphabetical" then sortBy' (fun a b => decide (nameKey a ≤ nameKey b)) results
    else results

/-- The options object consumed by `advancedSearch` (src/search.js line 48). -/
structure SearchOptions where
  query : String
  folder : Option String
  dateRange : Option QDateRange
  sortBy : Option String
deriving DecidableEq, Repr

/-- `advancedSearch` (src/search.js lines 47-104).  The enclosing lunr index
built by `createEnhancedSearchIndex` is external library state; its ranked
full-text search is passed explicitly as `idxSearch`, and `notes` is the
collection the closure captured.  The four post-steps are the repository's. -/
def advancedSearch (idxSearch : String → List Hit) (notes : List Note)
    (options : SearchOptions) : List ScoredNote :=
  applySort options.sortBy
    (applyDateFilter options.dateRange
      (applyFolderFilter options.folder
        (resolveHits notes (idxSearch options.query))))

/-- Insertion-order deduplication, the semantics of `[...new Set(xs)]`. -/
def jsSetDedup {α : Type} [DecidableEq α] (l : List α) : List α :=
  l.foldl (fun acc a => if a ∈ acc then acc else acc ++ [a]) []

/-- `getFolders` (src/search.js lines 107-109):
`[...new Set(notes.map(note => note.folder))]`.  `NotesDatabase.getFolders`
(storage.js lines 155-166) computes the same value over the stored records. -/
def getFolders (notes : List Note) : List (Option String) :=
  jsSetDedup (notes.map (fun n => n.folder))

/-- The in-memory module state of src/index.js (lines 20-21): the lunr index
(modelled by the snapshot of notes it was built from) and the notes cache. -/
structure IndexState where
  searchIndex : Option (List Note)
  notesCache : List Note
deriving DecidableEq, Repr

/-- `fetchAppleNotes` (src/index.js lines 24-59).  The external JXA call
either yields notes or fails; its outcome is the explicit argument.  The
`catch` block logs and returns `[]`, so a failed fetch yields an empty list
rather than propagating. -/
def fetchAppleNotes (fetchOutcome : Except String (List Note)) : List Note :=
  match fetchOutcome with
  | .ok notes => notes
  | .error _ => []

/-- One nedb upsert `db.update({id}, note, {upsert: true})` (src/index.js
lines 78-88): replaces the record with the matching `id`, inserts if none. -/
def dbUpsert (db : List Note) (note : Note) : List Note :=
  if db.any (fun n => decide (n.id = note.id)) then
    db.map (fun n => if n.id = note.id then note else n)
  else db ++ [note]

/-- Return value of `buildIndex` (src/index.js lines 105-108). -/
structure BuildResult where
  indexed : Nat
  lastUpdated : String
deriving DecidableEq, Repr

/-- `buildIndex` (src/index.js lines 62-113): fetches (via `fetchAppleNotes`,
which cannot fail), upserts each note into the store in fetch order, rebuilds
the in-memory index wholesale from the fetched set, replaces the notes cache,
and returns `{indexed: notes.length, lastUpdated: now}`.  The progress
callback and the store's I/O failure mode are outside the claims and omitted;
`now` stands for `new Date().toISOString()`.  Index metadata is never touched
by this function.  Returns (result, new store, new in-memory state). -/
def buildIndex (fetchOutcome : Except String (List Note)) (now : String)
    (db : List Note) (_st : IndexState) :
    Except String BuildResult × List Note × IndexState :=
  let notes := fetchAppleNotes fetchOutcome
  let db' := notes.foldl dbUpsert db
  (.ok ⟨notes.length, now⟩, db', ⟨some notes, notes⟩)

/-- The persisted index metadata of storage.js (`IndexMetadata`, lines
172-225): the fields the cold-start claim refers to. -/
structure Metadata where
  indexed : Bool
  noteCount : Nat
deriving DecidableEq, Repr

/-- The whole process state relevant to a search request: the in-memory
module state of src/index.js plus the persisted store and metadata that
storage.js maintains on disk. -/
structure ProcessState where
  searchIndex : Option (List Note)
  notesCache : List Note
  store : List Note
  metadata : Metadata
deriving DecidableEq, Repr

/-- `searchNotes` (src/index.js lines 116-131): if no in-memory index exists
the error is thrown immediately; otherwise the lunr search (passed explicitly
as `idxSearch`, applied to the snapshot the index was built from) is resolved
against the notes cache.  Neither the persisted store nor the metadata is
consulted. -/
def searchNotes (st : ProcessState) (query : String)
    (idxSearch : List Note → String → List Hit) :
    Except String (List ScoredNote) :=
  match st.searchIndex with
  | none => .error "Index not built yet. Please run the indexNotes command first."
  | some ixNotes => .ok (resolveHits st.notesCache (idxSearch ixNotes query))

/-- Separator class of the lunr tokenizer (`lunr.tokenizer.separator`,
`/[\s\-]+/`). -/
def lunrSep (c : Char) : Bool := jsWS c || c == '-'

/-- Accumulator worker for `splitSep`: `acc` holds the reversed current run. -/
def splitSepGo (p : Char → Bool) : List Char → List Char → List (List Char)
  | [], acc => if acc.isEmpty then [] else [acc.reverse]
  | c :: rest, acc =>
    if p c then
      if acc.isEmpty then splitSepGo p rest []
      else acc.reverse :: splitSepGo p rest []
    else splitSepGo p rest (c :: acc)

/-- Split into maximal runs of non-separator characters, as the lunr
tokenizer slices its (already lower-cased) input. -/
def splitSep (p : Char → Bool) (s : List Char) : List (List Char) :=
  splitSepGo p s []

/-- The lunr tokenizer: lower-case the string, then slice it at separator
runs. -/
def lunrTokenize (s : String) : List (List Char) :=
  splitSep lunrSep (s.data.map lowerC)

/-- The custom pipeline function registered by `createEnhancedSearchIndex`
(src/search.js lines 22-31): a token containing a checklist glyph is updated
with `replace(/[☐☑]/g, '')`; any other token passes through unchanged. -/
def checklistPipeline (tok : List Char) : List Char :=
  if tok.contains '☐' || tok.contains '☑' then
    tok.filter (fun c => !(c == '☐' || c == '☑'))
  else tok

/-- The index terms one note contributes: the tokens of its `name`, `body`
and `folder` fields (the three fields registered in src/search.js lines
14-16), each passed through the custom pipeline stage.  lunr's default
trimmer/stop-word/stemmer stages are identity on every token exercised by the
claims and are not modelled; the custom stage runs last in lunr's pipeline,
so it determines the glyph content of the final terms either way. -/
def noteTerms (n : Note) : List (List Char) :=
  ((lunrTokenize n.name ++ lunrTokenize n.body ++ lunrTokenize (n.folder.getD "")).map
    checklistPipeline)

/-- Model of a lunr full-text search over the enhanced index: the query is
tokenized through the same pipeline and a note is a hit when any query token
matches one of its indexed terms (lunr's default OR semantics; ranking is a
black box per the spec and is not modelled).  Returns the ids of hits in
collection order. -/
def searchIds (notes : List Note) (q : String) : List String :=
  (notes.filter (fun n =>
    ((lunrTokenize q).map checklistPipeline).any (fun t => decide (t ∈ noteTerms n)))).map
    (fun n => n.id)

/-- A concrete note used as pre-existing state in the build-failure scenario. -/
def c2Note : Note :=
  ⟨"n1", "groceries", "buy milk", some "Personal", none, some "2023-06-01"⟩

/-- Concrete store contents for the cold-start scenario: three records. -/
def c4Store : List Note :=
  [⟨"a", "alpha", "milk one", some "Work", none, some "2023-01-02"⟩,
   ⟨"b", "beta", "milk two", some "Work", none, some "2023-01-03"⟩,
   ⟨"c", "gamma", "milk three", some "Home", none, some "2023-01-04"⟩]

/-- Fresh-process state: no in-memory index, persisted metadata claiming a
completed index of three notes, and a store holding those three records. -/
def c4State : ProcessState := ⟨none, [], c4Store, ⟨true, 3⟩⟩

/-- A note whose body carries the open-box checklist glyph. -/
def c5Unchecked : Note :=
  ⟨"u1", "todo", "☐ buy milk", some "Personal", none, some "2023-03-01"⟩

/-- A note whose body carries the checked-box checklist glyph. -/
def c5Checked : Note :=
  ⟨"c1", "todo", "☑ buy milk", some "Personal", none, some "2023-03-02"⟩

/-- A note modified during the afternoon of the last day of a date range. -/
def c7Note : Note :=
  ⟨"1", "yearly recap", "milk notes", some "Work", none,
   some "2023-12-31T15:00:00Z"⟩

/-- A note collection with a null folder and a duplicated folder value. -/
def c8Notes : List Note :=
  [⟨"a", "loose", "body", none, none, none⟩,
   ⟨"b", "memo", "body", some "Work", none, none⟩,
   ⟨"c", "plan", "body", some "Work", none, none⟩]

/-- A resolved result whose modification date lies far outside any range the
examples use, to exhibit pass-through when a range bound is missing. -/
def c9Entry : ScoredNote :=
  ⟨some ⟨"z", "old", "body", some "Work", none, some "1999-01-01"⟩, 5⟩

/-- Helper lemmas about the embedded string machinery follow; the claim
theorems come after them. -/

lemma lowerC_eq_colon {c : Char} (h : lowerC c = ':') : c = ':' := by
  unfold lowerC at h
  split at h <;> first | exact h | exact absurd h (by decide)

lemma matchLit_colon :
    ∀ {p s c r : List Char}, matchLit p s = some (c, r) → ':' ∈ p → ':' ∈ s := by
  intro p
  induction p with
  | nil => intro s c r _ hp; simp at hp
  | cons a ps ih =>
    intro s c r h hp
    cases s with
    | nil => simp [matchLit] at h
    | cons b bs =>
      unfold matchLit at h
      split at h
      case isTrue hab =>
        rcases List.mem_cons.mp hp with rfl | hp'
        · have hb : lowerC b = ':' := by
            have := beq_iff_eq.mp (show (lowerC ':' == lowerC b) = true from hab)
            simpa using this.symm
          exact List.mem_cons.mpr (Or.inl (lowerC_eq_colon hb).symm)
        · cases h2 : matchLit ps bs with
          | none => rw [h2] at h; exact absurd h (by simp)
          | some x => exact List.mem_cons.mpr (Or.inr (ih h2 hp'))
      case isFalse _ => exact absurd h (by simp)

lemma matchFolderAt_colon {s : List Char} {x : List Char × List Char}
    (h : matchFolderAt s = some x) : ':' ∈ s := by
  unfold matchFolderAt at h
  cases h1 : matchLit "folder:".data s with
  | none => rw [h1] at h; exact absurd h (by simp)
  | some y => exact matchLit_colon h1 (by decide)

lemma matchDateAt_colon {s : List Char} {x : List Char × List Char × Option (List Char)}
    (h : matchDateAt s = some x) : ':' ∈ s := by
  unfold matchDateAt at h
  cases h1 : matchLit "date:".data s with
  | none => rw [h1] at h; exact absurd h (by simp)
  | some y => exact matchLit_colon h1 (by decide)

lemma matchSortAt_colon {s : List Char} {x : List Char × List Char}
    (h : matchSortAt s = some x) : ':' ∈ s := by
  unfold matchSortAt at h
  cases h1 : matchLit "sort:".data s with
  | none => rw [h1] at h; exact absurd h (by simp)
  | some y => exact matchLit_colon h1 (by decide)

lemma findFirst_colon {β : Type} {m : List Char → Option β}
    (hm : ∀ (t : List Char) (x : β), m t = some x → ':' ∈ t) :
    ∀ {s : List Char}, ':' ∉ s → findFirst m s = none := by
  intro s
  induction s with
  | nil =>
    intro _
    cases h1 : m [] with
    | none => exact h1
    | some x => exact absurd (hm [] x h1) (by simp)
  | cons c rest ih =>
    intro hs
    unfold findFirst
    cases h1 : m (c :: rest) with
    | some x => exact absurd (hm _ x h1) hs
    | none => exact ih (fun hmem => hs (List.mem_cons.mpr (Or.inr hmem)))

lemma findFirst_some {β : Type} {m : List Char → Option β} {x : β} :
    ∀ {s : List Char}, findFirst m s = some x → ∃ t, m t = some x := by
  intro s
  induction s with
  | nil => intro h; exact ⟨[], h⟩
  | cons c rest ih =>
    intro h
    unfold findFirst at h
    cases h1 : m (c :: rest) with
    | some r => rw [h1] at h; exact ⟨c :: rest, h1.trans h⟩
    | none => rw [h1] at h; exact ih h

lemma matchLit_forall2 :
    ∀ {p s c r : List Char}, matchLit p s = some (c, r) →
      List.Forall₂ (fun a b => ciEq a b = true) p c := by
  intro p
  induction p with
  | nil =>
    intro s c r h
    simp only [matchLit, Option.some.injEq, Prod.mk.injEq] at h
    rw [← h.1]
    exact List.Forall₂.nil
  | cons a ps ih =>
    intro s c r h
    cases s with
    | nil => simp [matchLit] at h
    | cons b bs =>
      unfold matchLit at h
      split at h
      case isTrue hab =>
        cases h2 : matchLit ps bs with
        | none => rw [h2] at h; exact absurd h (by simp)
        | some x =>
          obtain ⟨took, rest⟩ := x
          rw [h2] at h
          simp only [Option.some.injEq, Prod.mk.injEq] at h
          rw [← h.1]
          exact List.Forall₂.cons hab (ih h2)
      case isFalse _ => exact absurd h (by simp)

lemma forall2_map_lowerC :
    ∀ {p c : List Char}, List.Forall₂ (fun a b => ciEq a b = true) p c →
      c.map lowerC = p.map lowerC := by
  intro p c h
  induction h with
  | nil => rfl
  | cons hab _ ih =>
    simp only [List.map_cons, ih, List.cons.injEq, and_true]
    exact (beq_iff_eq.mp hab).symm

lemma matchAlts_spec :
    ∀ {alts : List (List Char)} {s c r : List Char},
      matchAlts alts s = some (c, r) → ∃ alt ∈ alts, matchLit alt s = some (c, r) := by
  intro alts
  induction alts with
  | nil => intro s c r h; simp [matchAlts] at h
  | cons a as ih =>
    intro s c r h
    unfold matchAlts at h
    cases h1 : matchLit a s with
    | some x =>
      obtain ⟨c', r'⟩ := x
      rw [h1] at h
      simp only [Option.some.injEq, Prod.mk.injEq] at h
      exact ⟨a, List.mem_cons_self a as, by rw [h1, h.1, h.2]⟩
    | none =>
      rw [h1] at h
      obtain ⟨alt, halt, hm⟩ := ih h
      exact ⟨alt, List.mem_cons.mpr (Or.inr halt), hm⟩

lemma matchSortAt_cap {s w cap : List Char} (h : matchSortAt s = some (w, cap)) :
    jsToLower ⟨cap⟩ ∈
      (["relevance", "datenewest", "dateoldest", "alphabetical"] : List String) := by
  unfold matchSortAt at h
  cases h1 : matchLit "sort:".data s with
  | none => simp [h1] at h
  | some x =>
    obtain ⟨c1, r1⟩ := x
    cases h2 : matchAlts sortAlts r1 with
    | none => simp [h1, h2] at h
    | some y =>
      obtain ⟨c2, rest⟩ := y
      simp only [h1, h2, Option.some.injEq, Prod.mk.injEq] at h
      obtain ⟨-, rfl⟩ := h
      obtain ⟨alt, halt, hm⟩ := matchAlts_spec h2
      have hmap := forall2_map_lowerC (matchLit_forall2 hm)
      simp only [sortAlts, List.mem_cons, List.not_mem_nil, or_false] at halt
      rcases halt with rfl | rfl | rfl | rfl <;>
        (simp only [jsToLower]; rw [hmap]; decide)

lemma applyFolderStep_sortBy (o : List Char) (r : ParsedQuery) :
    (applyFolderStep o r).sortBy = r.sortBy := by
  unfold applyFolderStep
  cases h : findFirst matchFolderAt o with
  | none => rfl
  | some x => obtain ⟨w, c⟩ := x; rfl

lemma applyDateStep_sortBy (o : List Char) (r : ParsedQuery) :
    (applyDateStep o r).sortBy = r.sortBy := by
  unfold applyDateStep
  cases h : findFirst matchDateAt o with
  | none => rfl
  | some x => obtain ⟨w, c1, c2⟩ := x; rfl

lemma checklistPipeline_noGlyph (t : List Char) :
    '☐' ∉ checklistPipeline t ∧ '☑' ∉ checklistPipeline t := by
  unfold checklistPipeline
  split
  · constructor <;> intro hmem <;> simp [List.mem_filter] at hmem
  · next hcond =>
    simp only [Bool.or_eq_true, not_or] at hcond
    obtain ⟨h1, h2⟩ := hcond
    constructor <;> intro hmem
    · exact h1 (by simpa [List.contains, List.elem_iff] using hmem)
    · exact h2 (by simpa [List.contains, List.elem_iff] using hmem)

lemma foldl_dedup_mem {α : Type} [DecidableEq α] :
    ∀ (l acc : List α) (x : α),
      x ∈ l.foldl (fun acc a => if a ∈ acc then acc else acc ++ [a]) acc ↔
        x ∈ acc ∨ x ∈ l := by
  intro l
  induction l with
  | nil => intro acc x; simp
  | cons a as ih =>
    intro acc x
    simp only [List.foldl_cons]
    rw [ih]
    by_cases ha : a ∈ acc
    · rw [if_pos ha]
      simp only [List.mem_cons]
      constructor
      · rintro (h | h)
        · exact Or.inl h
        · exact Or.inr (Or.inr h)
      · rintro (h | rfl | h)
        · exact Or.inl h
        · exact Or.inl ha
        · exact Or.inr h
    · rw [if_neg ha]
      simp only [List.mem_append, List.mem_singleton, List.mem_cons]
      tauto

lemma foldl_dedup_nodup {α : Type} [DecidableEq α] :
    ∀ (l acc : List α), acc.Nodup →
      (l.foldl (fun acc a => if a ∈ acc then acc else acc ++ [a]) acc).Nodup := by
  intro l
  induction l with
  | nil => intro acc h; simpa
  | cons a as ih =>
    intro acc h
    simp only [List.foldl_cons]
    by_cases ha : a ∈ acc
    · rw [if_pos ha]; exact ih acc h
    · rw [if_neg ha]
      refine ih (acc ++ [a]) ?_
      simp [List.nodup_append, h, ha]

/-- C1: evaluation of `parseQuery` at the spec's example query.  The free
text, folder and date range come out exactly as the claim states, but the
`sortBy` field is the lower-cased capture `"datenewest"`, not the claimed
`"dateNewest"`: `parseQuery` applies `.toLowerCase()` to the capture even
though the repository's own `advancedSearch` switch (and its README) use the
camel-case mode names. -/
theorem c1_parseQuery_example :
    parseQuery "meeting notes folder:\"Work\" date:\"2023-01-01 to 2023-12-31\" sort:dateNewest" =
      ⟨"meeting notes", some "Work",
       some ⟨some "2023-01-01", some "2023-12-31"⟩, "datenewest"⟩ := by
  decide

/-- C2 counterexample: with a failed external fetch, a non-empty store and a
previously installed non-empty index, `buildIndex` does not propagate the
failure — it returns `Except.ok` with `indexed = 0` — and it replaces the
previously held index with a freshly built empty one, contradicting the
claim that the failure is propagated and the previous index stays in place. -/
theorem c2_counterexample :
    buildIndex (.error "fetch failed") "2024-01-01T00:00:00Z" [c2Note]
        ⟨some [c2Note], [c2Note]⟩ =
      (.ok ⟨0, "2024-01-01T00:00:00Z"⟩, [c2Note], ⟨some [], []⟩)
    ∧ (some ([] : List Note)) ≠ some [c2Note] := by
  exact ⟨rfl, by decide⟩

/-- C2 amended: when the external fetch fails, `fetchAppleNotes` swallows the
error and returns an empty list, so `buildIndex` succeeds with
`{indexed: 0, lastUpdated: now}`, performs no upserts (the store is returned
unchanged), and installs a fresh empty index and empty notes cache in place
of whatever was previously held; index metadata is never touched by
`buildIndex` in any case. -/
theorem c2_fetch_failure_swallowed :
    ∀ (e now : String) (db : List Note) (st : IndexState),
      buildIndex (.error e) now db st = (.ok ⟨0, now⟩, db, ⟨some [], []⟩) := by
  intro e now db st
  rfl

/-- C3 counterexample: a ranked hit whose id has no matching record in the
note collection is not dropped by `advancedSearch` — it yields a placeholder
entry carrying only the score (the spread of `undefined`), so the result
sequence still has length 1. -/
theorem c3_counterexample :
    advancedSearch (fun _ => [⟨"2", 3⟩]) [c2Note] ⟨"milk", none, none, none⟩ =
      [⟨none, 3⟩] := by
  decide

/-- C3 amended: the resolution step of query execution keeps every ranked
hit: the result has exactly one entry per hit; a hit whose id matches no
record produces a placeholder entry with no note fields and only the score
attached (it is not dropped and not an error), while a hit whose id does
match resolves to the full record with the score attached. -/
theorem c3_unmatched_hits_kept :
    ∀ (notes : List Note) (hits : List Hit) (h : Hit), h ∈ hits →
      ((resolveHits notes hits).length = hits.length
      ∧ ((∀ n ∈ notes, n.id ≠ h.ref) →
          (⟨none, h.score⟩ : ScoredNote) ∈ resolveHits notes hits)
      ∧ (∀ n : Note, notes.find? (fun n' => decide (n'.id = h.ref)) = some n →
          (⟨some n, h.score⟩ : ScoredNote) ∈ resolveHits notes hits)) := by
  intro notes hits h hh
  refine ⟨by simp [resolveHits], ?_, ?_⟩
  · intro hnone
    have hfind : notes.find? (fun n' => decide (n'.id = h.ref)) = none := by
      rw [List.find?_eq_none]
      intro n hn
      simp [hnone n hn]
    exact List.mem_map.mpr ⟨h, hh, by simp [hfind]⟩
  · intro n hfind
    exact List.mem_map.mpr ⟨h, hh, by simp [hfind]⟩

/-- C3 witness: instantiation of the amended statement at an empty note
collection and one dangling hit. -/
theorem c3_witness :
    (⟨none, (1 : Int)⟩ : ScoredNote) ∈ resolveHits [] [⟨"x", 1⟩] :=
  (c3_unmatched_hits_kept [] [⟨"x", 1⟩] ⟨"x", 1⟩ (by decide)).2.1 (by simp)

/-- C4 counterexample: in a fresh process whose persisted metadata says
`indexed = true` and whose store holds the three matching records, a search
request raises the index-not-built error immediately — no recovery attempt
rebuilds the index from the persisted store, even though that store is
non-empty and would yield a usable index, contradicting the claimed
cold-start recovery path. -/
theorem c4_counterexample :
    searchNotes c4State "milk" (fun _ _ => []) =
      .error "Index not built yet. Please run the indexNotes command first."
    ∧ c4State.metadata = ⟨true, 3⟩
    ∧ c4State.store.length = 3
    ∧ c4State.store ≠ [] := by
  exact ⟨rfl, rfl, rfl, by decide⟩

/-- C4 amended: there is no cold-start recovery: whenever no in-memory index
exists, `searchNotes` raises the index-not-built error immediately,
regardless of the persisted metadata and store contents (which it never
consults) and without calling the external fetch. -/
theorem c4_no_recovery :
    ∀ (st : ProcessState) (q : String) (f : List Note → String → List Hit),
      st.searchIndex = none →
      searchNotes st q f =
        .error "Index not built yet. Please run the indexNotes command first." := by
  intro st q f h
  unfold searchNotes
  rw [h]

/-- C4 witness: instantiation of the amended statement at the concrete
fresh-process state. -/
theorem c4_witness :
    searchNotes c4State "milk" (fun _ _ => []) =
      .error "Index not built yet. Please run the indexNotes command first." :=
  c4_no_recovery c4State "milk" (fun _ _ => []) rfl

/-- C5: checklist-glyph normalization.  For every note, no indexed term
contains an open-box or checked-box glyph (the custom pipeline stage strips
them before the token is added); the notes with bodies `"☐ buy milk"` and
`"☑ buy milk"` contribute identical term lists; and a search for
`"buy milk"` returns both notes. -/
theorem c5_checklist_normalization :
    (∀ (n : Note) (t : List Char), t ∈ noteTerms n → '☐' ∉ t ∧ '☑' ∉ t)
    ∧ noteTerms c5Unchecked = noteTerms c5Checked
    ∧ "u1" ∈ searchIds [c5Unchecked, c5Checked] "buy milk"
    ∧ "c1" ∈ searchIds [c5Unchecked, c5Checked] "buy milk" := by
  refine ⟨?_, by decide, by decide, by decide⟩
  intro n t ht
  simp only [noteTerms, List.mem_map] at ht
  obtain ⟨t0, -, rfl⟩ := ht
  exact checklistPipeline_noGlyph t0

/-- C5 witness: instantiation of the universal part at the token `buy` of
the concrete unchecked note. -/
theorem c5_witness :
    '☐' ∉ (['b', 'u', 'y'] : List Char) ∧ '☑' ∉ (['b', 'u', 'y'] : List Char) :=
  c5_checklist_normalization.1 c5Unchecked ['b', 'u', 'y'] (by decide)

/-- C6 counterexample: parser idempotence fails.  For the raw query
`folder:"A" folder:"B"` only the first folder directive is honored, the
second stays in the free-text remainder, and re-parsing that remainder
extracts it: the second parse returns `folder = some "B"`, not `null`. -/
theorem c6_counterexample :
    (parseQuery "folder:\"A\" folder:\"B\"").query = "folder:\"B\""
    ∧ (parseQuery ((parseQuery "folder:\"A\" folder:\"B\"").query)).folder = some "B" := by
  decide

/-- C6 amended: idempotence fails in general because a directive occurrence
left in the remainder is extracted by a second parse; it does hold for every
remainder containing no `:` character (every directive pattern requires one):
parsing such a string returns it unchanged as the query with folder `null`,
dateRange `null` and sortBy `relevance`. -/
theorem c6_reparse_colon_free :
    ∀ q : String, ':' ∉ q.data →
      parseQuery q = ⟨q, none, none, "relevance"⟩ := by
  intro q hq
  have hf : findFirst matchFolderAt q.data = none :=
    findFirst_colon (fun t x h => matchFolderAt_colon h) hq
  have hd : findFirst matchDateAt q.data = none :=
    findFirst_colon (fun t x h => matchDateAt_colon h) hq
  have hs : findFirst matchSortAt q.data = none :=
    findFirst_colon (fun t x h => matchSortAt_colon h) hq
  unfold parseQuery applySortStep applyDateStep applyFolderStep
  rw [hf, hd, hs]

/-- C6 witness: the free-text remainder of the spec's example query
re-parses to itself with no directives. -/
theorem c6_witness :
    parseQuery "meeting notes" = ⟨"meeting notes", none, none, "relevance"⟩ :=
  c6_reparse_colon_free "meeting notes" (by decide)

/-- C7 counterexample: with the date range `2023-01-01 .. 2023-12-31`, a note
modified at 15:00 UTC on the end day is dropped by query execution, because
`new Date("2023-12-31")` is midnight UTC of that day — contradicting the
claim that a note modified at any time during the end day is retained. -/
theorem c7_counterexample :
    advancedSearch (fun _ => [⟨"1", 2⟩]) [c7Note]
        ⟨"milk", none, some ⟨some "2023-01-01", some "2023-12-31"⟩, none⟩ = []
    ∧ c7Note.modificationDate = some "2023-12-31T15:00:00Z" := by
  decide

/-- C7 amended: when both bounds are non-empty, the date filter retains
exactly the entries whose modification-date instant lies in the closed
interval between the parsed bounds; a date-only bound parses to midnight UTC
of that day (so the start day's first instant is included but later times on
the end day are excluded — witnessed by the last two conjuncts). -/
theorem c7_date_filter_midnight_bounds :
    (∀ (results : List ScoredNote) (ds de : String), ds ≠ "" → de ≠ "" →
      ∀ e : ScoredNote,
        e ∈ applyDateFilter (some ⟨some ds, some de⟩) results ↔
          e ∈ results ∧ nanGe (entryModMs e) (jsParseDate ds) = true
            ∧ nanLe (entryModMs e) (jsParseDate de) = true)
    ∧ jsParseDate "2023-12-31" = some (encDate 2023 12 31 0 0 0)
    ∧ nanLe (jsParseDate "2023-12-31T15:00:00Z") (jsParseDate "2023-12-31") = false := by
  refine ⟨?_, by decide, by decide⟩
  intro results ds de hds hde e
  have h1 : jsTruthyS (some ds) = true := by simp [jsTruthyS, hds]
  have h2 : jsTruthyS (some de) = true := by simp [jsTruthyS, hde]
  simp [applyDateFilter, h1, h2, List.mem_filter, Bool.and_eq_true, and_assoc]

/-- C7 witness: instantiation of the amended filter characterization at the
concrete afternoon-of-end-day note. -/
theorem c7_witness :
    (⟨some c7Note, 2⟩ : ScoredNote) ∈
        applyDateFilter (some ⟨some "2023-01-01", some "2023-12-31"⟩)
          [⟨some c7Note, 2⟩] ↔
      (⟨some c7Note, 2⟩ : ScoredNote) ∈ [(⟨some c7Note, 2⟩ : ScoredNote)]
        ∧ nanGe (entryModMs ⟨some c7Note, 2⟩) (jsParseDate "2023-01-01") = true
        ∧ nanLe (entryModMs ⟨some c7Note, 2⟩) (jsParseDate "2023-12-31") = true :=
  c7_date_filter_midnight_bounds.1 [⟨some c7Note, 2⟩] "2023-01-01" "2023-12-31"
    (by decide) (by decide) ⟨some c7Note, 2⟩

/-- C8 counterexample: `getFolders` does not exclude null folder values: on a
collection containing a note with a null folder it returns a list containing
`null`, contradicting the claim that nulls are excluded. -/
theorem c8_counterexample :
    getFolders c8Notes = [none, some "Work"]
    ∧ (none : Option String) ∈ getFolders c8Notes := by
  decide

/-- C8 amended: `getFolders` returns each distinct folder value of the note
collection exactly once — including `null` when some record has no folder —
so its length equals the number of unique folder values (nulls counted)
across the input set. -/
theorem c8_distinct_folders :
    ∀ notes : List Note,
      (getFolders notes).Nodup
      ∧ ∀ f : Option String,
          (f ∈ getFolders notes ↔ f ∈ notes.map (fun n => n.folder)) := by
  intro notes
  constructor
  · exact foldl_dedup_nodup _ [] (by simp)
  · intro f
    rw [getFolders, jsSetDedup, foldl_dedup_mem]
    simp

/-- C9: the date-range filter of `advancedSearch` applies only when both
bounds are present and truthy: if either bound is absent or empty, the
filter step is the identity and every resolved result passes through
regardless of its modification date. -/
theorem c9_date_filter_requires_both_bounds :
    ∀ (r : QDateRange) (results : List ScoredNote),
      jsTruthyS r.start = false ∨ jsTruthyS r.«end» = false →
      applyDateFilter (some r) results = results := by
  intro r results h
  unfold applyDateFilter
  rcases h with h | h <;> simp [h]

/-- C9 witness: a start bound with no end bound leaves an out-of-range entry
untouched. -/
theorem c9_witness :
    applyDateFilter (some ⟨some "2023-01-01", none⟩) [c9Entry] = [c9Entry] :=
  c9_date_filter_requires_both_bounds ⟨some "2023-01-01", none⟩ [c9Entry]
    (Or.inr rfl)

/-- C10: the `sortBy` field produced by `parseQuery` is always one of the
four lower-cased mode names (or the default `relevance`); consequently a
parsed date-sort directive (`datenewest`/`dateoldest`) matches neither
camel-case branch of the `advancedSearch` sort switch, which therefore
leaves the result order exactly as produced by the preceding steps. -/
theorem c10_sortBy_lowercased :
    (∀ s : String, (parseQuery s).sortBy ∈
      (["relevance", "datenewest", "dateoldest", "alphabetical"] : List String))
    ∧ (∀ (s : String) (results : List ScoredNote),
        (parseQuery s).sortBy = "datenewest" ∨ (parseQuery s).sortBy = "dateoldest" →
        applySort (some ((parseQuery s).sortBy)) results = results) := by
  constructor
  · intro s
    unfold parseQuery applySortStep
    cases h : findFirst matchSortAt s.data with
    | none =>
      simp only [applyDateStep_sortBy, applyFolderStep_sortBy]
      decide
    | some x =>
      obtain ⟨w, cap⟩ := x
      simp only []
      obtain ⟨t, ht⟩ := findFirst_some h
      exact matchSortAt_cap ht
  · intro s results h
    rcases h with h | h <;> rw [h] <;> rfl

/-- C10 witness: instantiation at the raw query `sort:dateNewest`, whose
parsed sort mode is `datenewest` and leaves a singleton result list
unchanged. -/
theorem c10_witness :
    applySort (some ((parseQuery "sort:dateNewest").sortBy)) [c9Entry] = [c9Entry] :=
  c10_sortBy_lowercased.2 "sort:dateNewest" [c9Entry] (Or.inl (by decide))

end NotesIndexer
